import Mathlib

/-!
Verification of the segmented work/break timer state machine and the
dream-analysis gateway of the `topboompop-lifeclock-v2` browser extension.

The timer scheduler is embedded from `src/background.js`: the global
mutable state (`globalTimerState`, `globalIsPaused`) becomes an explicit
`BgState`, the per-second `setInterval` callback becomes the pure step
function `tick`, and the command handlers (`startSegmentedTimer`,
`pauseBackgroundTimer`, `resumeBackgroundTimer`, `stopBackgroundTimer`,
`GET_TIMER_STATE`) become pure state transformers.  JavaScript numbers on
these code paths hold integers, so they are modelled as `Nat`/`Int`; the
comparisons `currentBlock < blocks - 1` and `currentBlock === blocks - 1`
are carried out over `Int`, exactly as JavaScript evaluates them (this
matters when `blocks = 0`).  Notifications become values of `TimerEvent`.
-/

/-- The timer state object created by `startSegmentedTimer` in
`src/background.js` (`globalTimerState`).  `currentTime` is an `Int`
because the tick callback decrements it before testing `<= 0`, so it can
transiently reach `-1` inside a tick when a phase length is zero. -/
structure TimerState where
  total : Nat
  segment : Nat
  grace : Nat
  fullBlock : Nat
  blocks : Nat
  remainingTime : Nat
  currentBlock : Nat
  currentTime : Int
  isWorkTime : Bool
  startTime : Int
  deriving DecidableEq, Repr

/-- The background script's global mutable state: `globalTimerState`
(`none` = Idle) and `globalIsPaused`. -/
structure BgState where
  timer : Option TimerState
  isPaused : Bool
  deriving DecidableEq, Repr

/-- The notifications emitted via `notify(title, message)` in
`src/background.js`, one constructor per call site. -/
inductive TimerEvent where
  | sessionStarted (total segment grace blocks : Nat)
  | breakStarted (grace : Nat)
  | sessionComplete
  | finalSegment (remaining : Nat)
  | segmentStarted (currentBlock blocks : Nat)
  deriving DecidableEq, Repr

/-- The fresh timer object built by `startSegmentedTimer` (lines 41-52 of
`src/background.js`). -/
def initTimer (total segment grace : Nat) (now : Int) : TimerState :=
  { total := total
    segment := segment
    grace := grace
    fullBlock := segment + grace
    blocks := total / (segment + grace)
    remainingTime := total % (segment + grace)
    currentBlock := 0
    currentTime := (segment * 60 : Nat)
    isWorkTime := true
    startTime := now }

/-- `startSegmentedTimer(total, segment, grace)`: replaces any existing
timer with a fresh one, clears the paused flag and emits the
"Session Started" notification.  The prior state is not consulted. -/
def startSegmentedTimer (total segment grace : Nat) (now : Int) :
    BgState × TimerEvent :=
  (⟨some (initTimer total segment grace now), false⟩,
   .sessionStarted total segment grace (total / (segment + grace)))

/-- One firing of the `setInterval` callback installed by
`startBackgroundCountdown` (lines 66-116 of `src/background.js`).
Returns the new state and the notification emitted, if any. -/
def tick (s : BgState) : BgState × Option TimerEvent :=
  match s.timer with
  | none => (s, none)
  | some t =>
    if s.isPaused then (s, none)
    else
      let ct := t.currentTime - 1
      if ct ≤ 0 then
        if t.isWorkTime then
          if (t.currentBlock : Int) < (t.blocks : Int) - 1 ∨
             ((t.currentBlock : Int) = (t.blocks : Int) - 1 ∧ 0 < t.remainingTime) then
            (⟨some { t with isWorkTime := false,
                            currentTime := (t.grace * 60 : Nat) }, s.isPaused⟩,
             some (.breakStarted t.grace))
          else
            (⟨none, false⟩, some .sessionComplete)
        else
          let cb := t.currentBlock + 1
          if t.blocks ≤ cb then
            if 0 < t.remainingTime then
              (⟨some { t with currentBlock := cb, isWorkTime := true,
                              currentTime := (t.remainingTime * 60 : Nat) }, s.isPaused⟩,
               some (.finalSegment t.remainingTime))
            else
              (⟨none, false⟩, some .sessionComplete)
          else
            (⟨some { t with currentBlock := cb, isWorkTime := true,
                            currentTime := (t.segment * 60 : Nat) }, s.isPaused⟩,
             some (.segmentStarted cb t.blocks))
      else
        (⟨some { t with currentTime := ct }, s.isPaused⟩, none)

/-- The state part of one tick. -/
def tickS (s : BgState) : BgState := (tick s).1

/-- `pauseBackgroundTimer`: sets the paused flag only. -/
def pauseBackgroundTimer (s : BgState) : BgState := ⟨s.timer, true⟩

/-- `resumeBackgroundTimer`: clears the paused flag only. -/
def resumeBackgroundTimer (s : BgState) : BgState := ⟨s.timer, false⟩

/-- `stopBackgroundTimer`: discards the timer and clears the paused flag. -/
def stopBackgroundTimer : BgState := ⟨none, false⟩

/-- The snapshot returned for a `GET_TIMER_STATE` message
(`{ currentTimer: globalTimerState, isPaused: globalIsPaused }`). -/
def queryState (s : BgState) : Option TimerState × Bool := (s.timer, s.isPaused)

/-- The messages of the scheduler control channel
(`chrome.runtime.onMessage` dispatch in `src/background.js`). -/
inductive TimerMsg where
  | startTimer (total segment grace : Nat) (now : Int)
  | pauseTimer
  | resumeTimer
  | stopTimer
  | getTimerState
  deriving DecidableEq, Repr

/-- A response sent through `sendResponse`: either `{success: bool}` or a
state snapshot. -/
inductive TimerResponse where
  | ack (success : Bool)
  | snapshot (currentTimer : Option TimerState) (isPaused : Bool)
  deriving DecidableEq, Repr

/-- The `chrome.runtime.onMessage` listener of `src/background.js`. -/
def handleMessage (m : TimerMsg) (s : BgState) : BgState × TimerResponse :=
  match m with
  | .startTimer total segment grace now =>
    ((startSegmentedTimer total segment grace now).1, .ack true)
  | .pauseTimer => (pauseBackgroundTimer s, .ack true)
  | .resumeTimer => (resumeBackgroundTimer s, .ack true)
  | .stopTimer => (stopBackgroundTimer, .ack true)
  | .getTimerState => (s, .snapshot s.timer s.isPaused)

/-- The input validation performed by the popup's `startBtn` click handler
(lines 277-293 of the popup script) before any `START_TIMER` message is
sent.  Inputs are the `parseInt` results. -/
def popupStartValid (total segment grace : Int) : Bool :=
  if total ≤ 0 then false
  else if segment ≤ 0 then false
  else if grace < 0 then false
  else if total ≤ segment then false
  else true

/-- The popup's `startBtn` click handler, restricted to its effect on the
scheduler: an invalid configuration aborts before sending `START_TIMER`;
a valid one sends it. -/
def popupStartClick (total segment grace : Int) (now : Int) (s : BgState) : BgState :=
  if popupStartValid total segment grace then
    (handleMessage (.startTimer total.toNat segment.toNat grace.toNat now) s).1
  else s

/-! ## Invariant and tick measure for the scheduler -/

/-- Invariant of every timer state reachable from a start with a valid
configuration (`0 < segment < total`).  The last conjunct records that a
Break phase is only ever entered when the work-finished branch saw more
work ahead, which is what makes the "session ends on work" policy hold. -/
def WF (t : TimerState) : Prop :=
  0 < t.segment ∧ t.segment < t.total ∧
  t.fullBlock = t.segment + t.grace ∧
  t.blocks = t.total / t.fullBlock ∧
  t.remainingTime = t.total % t.fullBlock ∧
  t.currentBlock ≤ t.blocks ∧
  0 ≤ t.currentTime ∧
  (t.isWorkTime = true → 1 ≤ t.currentTime) ∧
  (t.isWorkTime = false →
    ((t.currentBlock : Int) < (t.blocks : Int) - 1 ∨
     ((t.currentBlock : Int) = (t.blocks : Int) - 1 ∧ 0 < t.remainingTime)))

instance (t : TimerState) : Decidable (WF t) := by
  unfold WF; infer_instance

/-- Number of ticks a break phase consumes once entered with
`currentTime = grace*60`: a zero-length break still consumes the one tick
on which the callback crosses zero. -/
def brkTicks (grace : Nat) : Nat := max (grace * 60) 1

/-- Ticks consumed by the final tail segment (break before it included),
zero when there is no tail. -/
def tailTicks (grace remaining : Nat) : Nat :=
  if 0 < remaining then brkTicks grace + remaining * 60 else 0

/-- Ticks remaining after the work phase of block `cb` crosses zero, in a
session with `blocks` full blocks, `segment`-minute work phases,
`grace`-minute breaks and a `remaining`-minute tail. -/
def workRest (blocks segment grace remaining cb : Nat) : Nat :=
  if cb < blocks then
    (blocks - 1 - cb) * (brkTicks grace + segment * 60) + tailTicks grace remaining
  else 0

/-- Ticks remaining after the break phase of block `cb` crosses zero. -/
def breakRest (blocks segment grace remaining cb : Nat) : Nat :=
  if blocks ≤ cb + 1 then
    (if 0 < remaining then remaining * 60 else 0)
  else segment * 60 + workRest blocks segment grace remaining (cb + 1)

/-- Exact number of ticks until the session completes, from state `t`. -/
def ticksLeft (t : TimerState) : Nat :=
  max t.currentTime.toNat 1 +
    (if t.isWorkTime then
      workRest t.blocks t.segment t.grace t.remainingTime t.currentBlock
     else breakRest t.blocks t.segment t.grace t.remainingTime t.currentBlock)

theorem ticksLeft_pos (t : TimerState) : 1 ≤ ticksLeft t := by
  unfold ticksLeft; omega

/-- A work phase that still has work after it is followed by a break and
everything after the break. -/
theorem workRest_eq_of_moreWork (blocks segment grace remaining cb : Nat)
    (h : cb + 1 < blocks ∨ (cb + 1 = blocks ∧ 0 < remaining)) :
    workRest blocks segment grace remaining cb =
      brkTicks grace + breakRest blocks segment grace remaining cb := by
  rcases h with h | ⟨h, hr⟩
  · unfold breakRest workRest
    rw [if_pos (by omega : cb < blocks), if_neg (by omega : ¬ blocks ≤ cb + 1),
        if_pos (by omega : cb + 1 < blocks),
        show blocks - 1 - cb = (blocks - 1 - (cb + 1)) + 1 from by omega,
        Nat.succ_mul]
    generalize (blocks - 1 - (cb + 1)) * (brkTicks grace + segment * 60) = m
    unfold tailTicks brkTicks
    split <;> omega
  · unfold workRest breakRest tailTicks
    rw [if_pos (by omega : cb < blocks), if_pos (by omega : blocks ≤ cb + 1),
        show blocks - 1 - cb = 0 from by omega, if_pos hr, if_pos hr]
    unfold brkTicks
    omega

/-- A work phase with no work after it is the last phase. -/
theorem workRest_eq_zero_of_noWork (blocks segment grace remaining cb : Nat)
    (h : ¬ (cb + 1 < blocks ∨ (cb + 1 = blocks ∧ 0 < remaining))) :
    workRest blocks segment grace remaining cb = 0 := by
  push_neg at h
  unfold workRest tailTicks
  by_cases hlt : cb < blocks
  · have hc : cb + 1 = blocks := by omega
    have hr : remaining = 0 := by have := h.2 hc; omega
    rw [if_pos hlt, show blocks - 1 - cb = 0 from by omega, hr]
    simp
  · rw [if_neg hlt]

theorem wf_initTimer (total segment grace : Nat) (now : Int)
    (h1 : 0 < segment) (h2 : segment < total) :
    WF (initTimer total segment grace now) := by
  refine ⟨h1, h2, rfl, rfl, rfl, Nat.zero_le _, ?_, ?_, ?_⟩
  · simp [initTimer]
  · intro _; simp [initTimer]; omega
  · intro h; simp [initTimer] at h

/-- One tick from a well-formed running state either completes the
session (exactly when one tick remains, and then only from a Work phase)
or preserves well-formedness and decreases the remaining-tick measure by
exactly one. -/
theorem tick_step (s : BgState) (t : TimerState)
    (hs : s.timer = some t) (hp : s.isPaused = false) (hwf : WF t) :
    (tick s = (⟨none, false⟩, some .sessionComplete) ∧ ticksLeft t = 1 ∧
      t.isWorkTime = true) ∨
    (∃ t', (tick s).1 = ⟨some t', false⟩ ∧ WF t' ∧ ticksLeft t' + 1 = ticksLeft t) := by
  obtain ⟨hseg, htot, hfb, hbl, hrem, hcb, hct0, hwork, hbreak⟩ := hwf
  unfold tick
  rw [hs, hp]
  simp only [Bool.false_eq_true, if_false]
  by_cases hcross : t.currentTime - 1 ≤ 0
  · simp only [hcross, if_true]
    cases hw : t.isWorkTime with
    | true =>
      have hct1 : t.currentTime = 1 := by have := hwork hw; omega
      simp only [if_true]
      by_cases hmw : (t.currentBlock : Int) < (t.blocks : Int) - 1 ∨
          ((t.currentBlock : Int) = (t.blocks : Int) - 1 ∧ 0 < t.remainingTime)
      · have hmwN : t.currentBlock + 1 < t.blocks ∨
            (t.currentBlock + 1 = t.blocks ∧ 0 < t.remainingTime) := by
          rcases hmw with h | ⟨h, hr⟩
          · left; omega
          · right; exact ⟨by omega, hr⟩
        right
        simp only [hmw, if_true]
        refine ⟨_, rfl, ?_, ?_⟩
        · exact ⟨hseg, htot, hfb, hbl, hrem, hcb, by positivity, by simp, by simpa using hmw⟩
        · simp only [ticksLeft, hw, hct1, if_true, Bool.false_eq_true, if_false]
          rw [workRest_eq_of_moreWork _ _ _ _ _ hmwN]
          unfold brkTicks
          omega
      · have hmwN : ¬ (t.currentBlock + 1 < t.blocks ∨
            (t.currentBlock + 1 = t.blocks ∧ 0 < t.remainingTime)) := by
          push_neg at hmw ⊢
          exact ⟨by omega, fun h => by have := hmw.2 (by omega); omega⟩
        left
        refine ⟨?_, ?_, by trivial⟩
        · simp only [hmw, if_false]
        · simp only [ticksLeft, hw, hct1, if_true]
          rw [workRest_eq_zero_of_noWork _ _ _ _ _ hmwN]
          omega
    | false =>
      have hct1 : max t.currentTime.toNat 1 = 1 := by omega
      simp only [Bool.false_eq_true, if_false]
      have hbk := hbreak hw
      by_cases hge : t.blocks ≤ t.currentBlock + 1
      · have hcbeq : t.currentBlock + 1 = t.blocks := by
          rcases hbk with h | ⟨h, _⟩ <;> omega
        by_cases hr : 0 < t.remainingTime
        · right
          simp only [hge, if_true, hr]
          refine ⟨_, rfl, ?_, ?_⟩
          · refine ⟨hseg, htot, hfb, hbl, hrem, by dsimp only; omega, by positivity, ?_, by simp⟩
            intro _
            dsimp only
            have h1 : 1 ≤ t.remainingTime * 60 := by omega
            exact_mod_cast h1
          · simp only [ticksLeft, hw, Bool.false_eq_true, if_false, if_true, hct1]
            unfold workRest breakRest
            rw [if_neg (by omega : ¬ t.currentBlock + 1 < t.blocks), if_pos hge, if_pos hr]
            omega
        · exfalso
          rcases hbk with h | ⟨h, h2⟩ <;> omega
      · right
        simp only [hge, if_false]
        refine ⟨_, rfl, ?_, ?_⟩
        · refine ⟨hseg, htot, hfb, hbl, hrem, by dsimp only; omega, by positivity, ?_, by simp⟩
          intro _
          dsimp only
          have h1 : 1 ≤ t.segment * 60 := by omega
          exact_mod_cast h1
        · simp only [ticksLeft, hw, Bool.false_eq_true, if_false, if_true, hct1]
          rw [show breakRest t.blocks t.segment t.grace t.remainingTime t.currentBlock =
              t.segment * 60 +
                workRest t.blocks t.segment t.grace t.remainingTime (t.currentBlock + 1) from by
            unfold breakRest; rw [if_neg hge]]
          omega
  · right
    simp only [hcross, if_false]
    refine ⟨_, rfl, ?_, ?_⟩
    · refine ⟨hseg, htot, hfb, hbl, hrem, hcb, by dsimp only; omega,
        fun _ => by dsimp only; omega, ?_⟩
      intro h
      exact hbreak (by simpa using h)
    · simp only [ticksLeft]
      split <;> omega

theorem tickS_of_idle (s : BgState) (h : s.timer = none) : tickS s = s := by
  unfold tickS tick
  rw [h]

theorem tickN_of_idle (m : Nat) (s : BgState) (h : s.timer = none) :
    tickS^[m] s = s := by
  induction m with
  | zero => rfl
  | succ m ih =>
    rw [Function.iterate_succ_apply, tickS_of_idle s h, ih]

/-- From a well-formed running state, the session reaches Idle after
exactly `ticksLeft t` ticks and not one tick earlier. -/
theorem run_reaches_idle :
    ∀ (n : Nat) (s : BgState) (t : TimerState), s.timer = some t →
      s.isPaused = false → WF t → ticksLeft t = n →
      (tickS^[n] s).timer = none ∧ ∀ j < n, (tickS^[j] s).timer ≠ none := by
  intro n
  induction n with
  | zero =>
    intro s t _ _ _ hn
    have := ticksLeft_pos t
    omega
  | succ n ih =>
    intro s t hs hp hwf hn
    rcases tick_step s t hs hp hwf with ⟨hdone, hone, _⟩ | ⟨t', ht', hwf', hdec⟩
    · have hn0 : n = 0 := by omega
      subst hn0
      constructor
      · rw [Function.iterate_succ_apply, Function.iterate_zero_apply]
        show (tick s).1.timer = none
        rw [hdone]
      · intro j hj
        interval_cases j
        simp only [Function.iterate_zero_apply, hs]
        exact fun h => by cases h
    · have hstep : tickS s = ⟨some t', false⟩ := ht'
      have hrec := ih ⟨some t', false⟩ t' rfl rfl hwf' (by omega)
      constructor
      · rw [Function.iterate_succ_apply, hstep]
        exact hrec.1
      · intro j hj
        cases j with
        | zero =>
          simp only [Function.iterate_zero_apply, hs]
          exact fun h => by cases h
        | succ j =>
          rw [Function.iterate_succ_apply, hstep]
          exact hrec.2 j (by omega)

/-- The freshly started session completes within `total*60 + blocks`
ticks.  (`total*60` alone is not always enough: when `grace = 0` each
zero-length break still consumes one tick.) -/
theorem ticksLeft_init_le (total segment grace : Nat) (now : Int)
    (h1 : 0 < segment) (h2 : segment < total) :
    ticksLeft (initTimer total segment grace now) ≤
      total * 60 + total / (segment + grace) := by
  have hdm : (segment + grace) * (total / (segment + grace)) +
      total % (segment + grace) = total := Nat.div_add_mod total (segment + grace)
  simp only [ticksLeft, initTimer, if_true]
  have hcast : ((segment * 60 : Nat) : Int).toNat = segment * 60 := by omega
  rw [hcast]
  generalize hbdef : total / (segment + grace) = b at hdm ⊢
  generalize hrdef : total % (segment + grace) = r at hdm ⊢
  cases b with
  | zero =>
    rw [workRest, if_neg (by omega : ¬ (0:Nat) < 0)]
    have hmono : segment * 60 ≤ total * 60 :=
      Nat.mul_le_mul_right _ (Nat.le_of_lt h2)
    omega
  | succ b' =>
    rw [workRest, if_pos (Nat.succ_pos b'), show b' + 1 - 1 - 0 = b' from by omega]
    unfold tailTicks brkTicks
    have hmul : b' * (max (grace * 60) 1 + segment * 60) =
        b' * (max (grace * 60) 1) + b' * (segment * 60) := by ring
    have hmono : b' * (max (grace * 60) 1) ≤ b' * (grace * 60) + b' := by
      calc b' * (max (grace * 60) 1) ≤ b' * (grace * 60 + 1) :=
            Nat.mul_le_mul_left _ (by omega)
        _ = b' * (grace * 60) + b' := by ring
    have htot60 : total * 60 =
        b' * (segment * 60) + segment * 60 + (b' * (grace * 60) + grace * 60) + r * 60 := by
      rw [← hdm]; ring
    split <;> omega

theorem tickS_of_paused (s : BgState) (h : s.isPaused = true) : tick s = (s, none) := by
  unfold tick
  cases hst : s.timer with
  | none => rfl
  | some t =>
    dsimp only
    rw [if_pos h]

/-! ## Claim theorems for the scheduler -/

/-- Claim C1: for every valid configuration (`0 < segment < total`,
`grace ≥ 0`), the timer state created by `startSegmentedTimer` has
`blocks = ⌊total/(segment+grace)⌋`, `remainingTime = total mod
(segment+grace)` (hence `blocks*fullBlock + remainingTime = total` and
`remainingTime < fullBlock`), `currentBlock = 0`, `isWorkTime = true`,
`currentTime = segment*60` seconds, and an immediate `GET_TIMER_STATE`
query returns exactly this state with the paused flag clear. -/
theorem start_initializes_session (total segment grace : Nat) (now : Int)
    (h1 : 0 < segment) (h2 : segment < total) :
    ∃ t, (startSegmentedTimer total segment grace now).1.timer = some t ∧
      t.fullBlock = segment + grace ∧
      t.blocks = total / (segment + grace) ∧
      t.remainingTime = total % (segment + grace) ∧
      t.blocks * t.fullBlock + t.remainingTime = total ∧
      t.remainingTime < t.fullBlock ∧
      t.currentBlock = 0 ∧
      t.isWorkTime = true ∧
      t.currentTime = (segment * 60 : Nat) ∧
      queryState (startSegmentedTimer total segment grace now).1 = (some t, false) := by
  refine ⟨initTimer total segment grace now, rfl, rfl, rfl, rfl, ?_, ?_, rfl, rfl, rfl, rfl⟩
  · have h := Nat.div_add_mod total (segment + grace)
    have hc : total / (segment + grace) * (segment + grace) =
        (segment + grace) * (total / (segment + grace)) := Nat.mul_comm _ _
    simp only [initTimer]
    omega
  · simp only [initTimer]
    exact Nat.mod_lt total (by omega)

theorem start_initializes_session_witness :
    ∃ t, (startSegmentedTimer 50 20 5 0).1.timer = some t ∧
      t.blocks = 2 ∧ t.remainingTime = 0 ∧ t.currentBlock = 0 ∧
      t.isWorkTime = true ∧ t.currentTime = 1200 ∧
      queryState (startSegmentedTimer 50 20 5 0).1 = (some t, false) := by
  obtain ⟨t, ht, _, hbl, hrem, _, _, hcb, hwk, hct, hq⟩ :=
    start_initializes_session 50 20 5 0 (by decide) (by decide)
  refine ⟨t, ht, ?_, ?_, hcb, hwk, ?_, hq⟩
  · rw [hbl]
  · rw [hrem]
  · rw [hct]; norm_num

/-- Claim C2 (amended): from any valid configuration the session reaches
Idle exactly once within `total*60 + blockCount` ticks — not always
within `total*60` ticks, because with `grace = 0` each zero-length break
still consumes one tick — and a tick in the Idle state changes nothing. -/
theorem session_reaches_idle_once (total segment grace : Nat) (now : Int)
    (h1 : 0 < segment) (h2 : segment < total) :
    (∀ p, tickS ⟨none, p⟩ = ⟨none, p⟩) ∧
    ∃ k, k ≤ total * 60 + total / (segment + grace) ∧
      (∀ j < k, (tickS^[j] (startSegmentedTimer total segment grace now).1).timer ≠ none) ∧
      (∀ j, k ≤ j → (tickS^[j] (startSegmentedTimer total segment grace now).1).timer = none) := by
  constructor
  · intro p; exact tickS_of_idle _ rfl
  · have hwf := wf_initTimer total segment grace now h1 h2
    have hrun := run_reaches_idle (ticksLeft (initTimer total segment grace now))
      (startSegmentedTimer total segment grace now).1
      (initTimer total segment grace now) rfl rfl hwf rfl
    refine ⟨ticksLeft (initTimer total segment grace now),
      ticksLeft_init_le total segment grace now h1 h2, hrun.2, ?_⟩
    intro j hj
    obtain ⟨m, rfl⟩ : ∃ m, j = m + ticksLeft (initTimer total segment grace now) :=
      ⟨j - ticksLeft (initTimer total segment grace now), by omega⟩
    rw [Function.iterate_add_apply,
        tickN_of_idle m _ hrun.1, hrun.1]

theorem session_reaches_idle_once_witness :
    (∀ p, tickS ⟨none, p⟩ = ⟨none, p⟩) ∧
    ∃ k, k ≤ 50 * 60 + 50 / (20 + 5) ∧
      (∀ j < k, (tickS^[j] (startSegmentedTimer 50 20 5 0).1).timer ≠ none) ∧
      (∀ j, k ≤ j → (tickS^[j] (startSegmentedTimer 50 20 5 0).1).timer = none) :=
  session_reaches_idle_once 50 20 5 0 (by decide) (by decide)

set_option maxRecDepth 4000 in
/-- Claim C2 (counterexample): with the valid configuration
`total = 2, segment = 1, grace = 0`, the session has NOT reached Idle
after `total*60 = 120` ticks — the two zero-length breaks each consume a
tick, so completion happens only at tick 121. -/
theorem ticks_total60_not_idle :
    ((tickS^[2 * 60] (startSegmentedTimer 2 1 0 0).1).timer ≠ none) ∧
    ((tickS^[2 * 60 + 1] (startSegmentedTimer 2 1 0 0).1).timer = none) := by
  constructor
  · decide
  · decide

/-- Claim C3: from any well-formed running state, the transition to Idle
only ever happens out of a Work phase and emits the session-complete
notification; in particular, when `remainingTime = 0` and the Work phase
of the last regular block (`currentBlock + 1 = blocks`) counts down to
zero, the callback completes the session directly, without entering a
Break phase. -/
theorem session_ends_on_work (s : BgState) (t : TimerState)
    (hs : s.timer = some t) (hp : s.isPaused = false) (hwf : WF t) :
    ((tick s).1.timer = none →
      t.isWorkTime = true ∧ (tick s).2 = some TimerEvent.sessionComplete) ∧
    (t.remainingTime = 0 → t.isWorkTime = true →
      t.currentBlock + 1 = t.blocks → t.currentTime = 1 →
      tick s = (⟨none, false⟩, some TimerEvent.sessionComplete)) := by
  constructor
  · intro hidle
    rcases tick_step s t hs hp hwf with ⟨hdone, _, hw⟩ | ⟨t', ht', _, _⟩
    · refine ⟨hw, ?_⟩
      rw [hdone]
    · rw [ht'] at hidle
      cases hidle
  · intro hr hw hcb hct
    unfold tick
    rw [hs, hp]
    simp only [Bool.false_eq_true, if_false, hw, if_true, hct]
    rw [if_pos (by omega : (1:Int) - 1 ≤ 0),
        if_neg (by rintro (h | ⟨h, h2⟩) <;> omega)]

theorem session_ends_on_work_witness :
    tick ⟨some { total := 50, segment := 20, grace := 5, fullBlock := 25,
                 blocks := 2, remainingTime := 0, currentBlock := 1,
                 currentTime := 1, isWorkTime := true, startTime := 0 }, false⟩ =
      (⟨none, false⟩, some TimerEvent.sessionComplete) :=
  (session_ends_on_work _ _ rfl rfl (by decide)).2 rfl rfl rfl rfl

/-- States of the background script reachable from the initial Idle state
by any sequence of control-channel commands (with valid start
configurations) and ticks. -/
inductive Reached : BgState → Prop where
  | init : Reached ⟨none, false⟩
  | start (total segment grace : Nat) (now : Int) (s : BgState)
      (h1 : 0 < segment) (h2 : segment < total) (hs : Reached s) :
      Reached (handleMessage (.startTimer total segment grace now) s).1
  | pause (s : BgState) (hs : Reached s) : Reached (handleMessage .pauseTimer s).1
  | resume (s : BgState) (hs : Reached s) : Reached (handleMessage .resumeTimer s).1
  | stop (s : BgState) (hs : Reached s) : Reached (handleMessage .stopTimer s).1
  | tick (s : BgState) (hs : Reached s) : Reached (tickS s)

theorem reached_wf (s : BgState) (h : Reached s) :
    ∀ t, s.timer = some t → WF t := by
  induction h with
  | init => intro t ht; cases ht
  | start total segment grace now s h1 h2 _ _ =>
    intro t ht
    simp only [handleMessage, startSegmentedTimer, Option.some.injEq] at ht
    rw [← ht]
    exact wf_initTimer total segment grace now h1 h2
  | pause s _ ih => intro t ht; exact ih t ht
  | resume s _ ih => intro t ht; exact ih t ht
  | stop s _ _ => intro t ht; cases ht
  | tick s _ ih =>
    intro t' ht'
    cases hst : s.timer with
    | none =>
      rw [tickS_of_idle s hst, hst] at ht'
      cases ht'
    | some t0 =>
      have hwf0 := ih t0 hst
      cases hp : s.isPaused with
      | true =>
        have := tickS_of_paused s hp
        unfold tickS at ht'
        rw [this, hst] at ht'
        cases ht'
        exact hwf0
      | false =>
        rcases tick_step s t0 hst hp hwf0 with ⟨hdone, _, _⟩ | ⟨t1, ht1, hwf1, _⟩
        · unfold tickS at ht'
          rw [hdone] at ht'
          cases ht'
        · unfold tickS at ht'
          rw [ht1] at ht'
          cases ht'
          exact hwf1

/-- Claim C4: in every state reachable from Idle by start/pause/resume/
stop/tick commands (valid start configurations), the live timer — when
present — satisfies `currentBlock ≤ blocks` and `currentTime ≥ 0` as
observed by `queryState` between ticks; and there is only ever the single
timer slot: a new start produces the same state regardless of whatever
timer existed before. -/
theorem reachable_state_invariants (s : BgState) (h : Reached s) :
    (∀ t, (queryState s).1 = some t →
      t.currentBlock ≤ t.blocks ∧ 0 ≤ t.currentTime) ∧
    (∀ (total segment grace : Nat) (now : Int) (s' : BgState),
      (handleMessage (.startTimer total segment grace now) s).1 =
        (handleMessage (.startTimer total segment grace now) s').1) := by
  constructor
  · intro t ht
    obtain ⟨_, _, _, _, _, hcb, hct, _, _⟩ := reached_wf s h t ht
    exact ⟨hcb, hct⟩
  · intro total segment grace now s'
    rfl

theorem reachable_state_invariants_witness :
    (initTimer 50 20 5 0).currentBlock ≤ (initTimer 50 20 5 0).blocks ∧
    0 ≤ (initTimer 50 20 5 0).currentTime :=
  (reachable_state_invariants _
    (Reached.start 50 20 5 0 ⟨none, false⟩ (by decide) (by decide) Reached.init)).1
    (initTimer 50 20 5 0) rfl

/-- Claim C5: while the paused flag is set, any number of ticks leave the
whole background state (timer fields included) unchanged, and resuming
clears only the paused flag, leaving the timer — hence the frozen
countdown value and phase — exactly as it was. -/
theorem paused_ticks_frozen (s : BgState) (h : s.isPaused = true) :
    (∀ n, tickS^[n] s = s) ∧
    (resumeBackgroundTimer s).timer = s.timer ∧
    (resumeBackgroundTimer s).isPaused = false := by
  refine ⟨?_, rfl, rfl⟩
  intro n
  induction n with
  | zero => rfl
  | succ n ih =>
    rw [Function.iterate_succ_apply]
    unfold tickS
    rw [tickS_of_paused s h]
    exact ih

theorem paused_ticks_frozen_witness :
    (∀ n, tickS^[n] (pauseBackgroundTimer (startSegmentedTimer 50 20 5 0).1) =
      pauseBackgroundTimer (startSegmentedTimer 50 20 5 0).1) ∧
    (resumeBackgroundTimer (pauseBackgroundTimer (startSegmentedTimer 50 20 5 0).1)).timer =
      (pauseBackgroundTimer (startSegmentedTimer 50 20 5 0).1).timer ∧
    (resumeBackgroundTimer (pauseBackgroundTimer (startSegmentedTimer 50 20 5 0).1)).isPaused =
      false :=
  paused_ticks_frozen _ rfl

/-- Claim C6 (counterexample): a `PAUSE_TIMER` command received while
Idle is not observably a no-op: it sets the global paused flag, so the
snapshot returned by `GET_TIMER_STATE` changes from `(none, false)` to
`(none, true)`. -/
theorem pause_while_idle_changes_query :
    queryState (handleMessage .pauseTimer ⟨none, false⟩).1 ≠
      queryState (⟨none, false⟩ : BgState) := by
  decide

/-- Claim C6 (amended): a start with an invalid configuration
(non-positive total or segment, negative grace, or `segment ≥ total`)
fails the popup's validation and performs no state change; `STOP_TIMER`
and `RESUME_TIMER` received in the canonical Idle state report success
and leave the observable state unchanged; `PAUSE_TIMER` received while
Idle reports success and keeps the timer absent, but sets the paused
flag, which the `GET_TIMER_STATE` snapshot reports. -/
theorem idle_command_semantics (total segment grace now : Int) (s : BgState)
    (hinv : popupStartValid total segment grace = false) :
    popupStartClick total segment grace now s = s ∧
    (popupStartValid total segment grace = true ↔
      (0 < total ∧ 0 < segment ∧ 0 ≤ grace ∧ segment < total)) ∧
    handleMessage .stopTimer ⟨none, false⟩ = (⟨none, false⟩, .ack true) ∧
    handleMessage .resumeTimer ⟨none, false⟩ = (⟨none, false⟩, .ack true) ∧
    handleMessage .pauseTimer ⟨none, false⟩ = (⟨none, true⟩, .ack true) := by
  refine ⟨?_, ?_, rfl, rfl, rfl⟩
  · unfold popupStartClick
    rw [hinv]
    simp
  · unfold popupStartValid
    split_ifs <;> simp <;> omega

theorem idle_command_semantics_witness :
    popupStartClick 10 10 0 0 ⟨none, false⟩ = ⟨none, false⟩ ∧
    (popupStartValid 10 10 0 = true ↔
      ((0:Int) < 10 ∧ (0:Int) < 10 ∧ (0:Int) ≤ 0 ∧ (10:Int) < 10)) ∧
    handleMessage .stopTimer ⟨none, false⟩ = (⟨none, false⟩, .ack true) ∧
    handleMessage .resumeTimer ⟨none, false⟩ = (⟨none, false⟩, .ack true) ∧
    handleMessage .pauseTimer ⟨none, false⟩ = (⟨none, true⟩, .ack true) :=
  idle_command_semantics 10 10 0 0 ⟨none, false⟩ (by decide)

/-!
## Dream Analysis Gateway

Embedded from the Express server (`POST /api/analyzeDream`) and the
popup's local fallback analysis (`analyzeDreamLocally`).  JSON values are
modelled by the `Json` inductive; the result of `JSON.parse` on the
completion content returned by the external service is modelled as an
`Option Json` parameter (`none` = the parse threw).  JavaScript string
`.length`/`includes`/`toLowerCase` are modelled on the character lists of
Lean strings, with ASCII lowercasing (all configured keywords are ASCII).
-/

/-- A JSON value. -/
inductive Json where
  | null
  | bool (b : Bool)
  | num (q : Rat)
  | str (s : String)
  | arr (elems : List Json)
  | obj (fields : List (String × Json))

/-- First binding of a key in a JSON object (`undefined` = `none`). -/
def Json.lookup (key : String) : Json → Option Json
  | .obj fields => List.lookup key fields
  | _ => none

/-- The keys of a JSON object, in insertion order. -/
def Json.keys : Json → List String
  | .obj fields => fields.map Prod.fst
  | _ => []

def Json.asString : Json → Option String
  | .str s => some s
  | _ => none

def Json.asStringList : Json → Option (List String)
  | .arr elems => elems.mapM Json.asString
  | _ => none

def Json.asNum : Json → Option Rat
  | .num q => some q
  | _ => none

/-- The validated shape of an analysis produced by the external model:
`z.object({emotions, themes, interpretation, symbols, confidence})` with
`confidence` a number in `[0,1]`. -/
structure AnalysisData where
  emotions : List String
  themes : List String
  interpretation : String
  symbols : List String
  confidence : Rat
  deriving DecidableEq, Repr

/-- The structural validation applied to the parsed OpenAI response
(lines 150-156 of the server): each of the five keys must be present with
the right type and `confidence ∈ [0,1]`; anything else fails. -/
def validateAnalysisData (j : Json) : Option AnalysisData := do
  let emotions ← (Json.lookup "emotions" j).bind Json.asStringList
  let themes ← (Json.lookup "themes" j).bind Json.asStringList
  let interpretation ← (Json.lookup "interpretation" j).bind Json.asString
  let symbols ← (Json.lookup "symbols" j).bind Json.asStringList
  let confidence ← (Json.lookup "confidence" j).bind Json.asNum
  if 0 ≤ confidence ∧ confidence ≤ 1 then
    pure ⟨emotions, themes, interpretation, symbols, confidence⟩
  else none

/-- The request body of `POST /api/analyzeDream`. -/
structure DreamRequest where
  dreamText : String
  userId : Option String
  timestamp : Option Int
  deriving DecidableEq, Repr

/-- Zod error for a too-short `dreamText`, as assembled by the handler
(`path.join + message`). -/
def dreamTextMinError : String := "dreamText: Dream text must be at least 20 characters"

/-- Zod error for a too-long `dreamText`. -/
def dreamTextMaxError : String := "dreamText: Dream text cannot exceed 2000 characters"

/-- `DreamAnalysisSchema.safeParse` on a request body, reduced to the
constraint that can fail on a typed body: the `dreamText` length bounds
`min(20)` / `max(2000)`.  Returns the handler's `Validation failed:`
message on failure. -/
def validateDreamRequest (b : DreamRequest) : Option String :=
  if b.dreamText.length < 20 then
    some ("Validation failed: " ++ dreamTextMinError)
  else if 2000 < b.dreamText.length then
    some ("Validation failed: " ++ dreamTextMaxError)
  else none

/-- An HTTP response: status code plus JSON body. -/
structure HttpResponse where
  status : Nat
  body : Json

/-- An error body `{success: false, error, requestId}`. -/
def errorResponseJson (msg rid : String) : Json :=
  .obj [("success", .bool false), ("error", .str msg), ("requestId", .str rid)]

/-- Fixed message for an unparseable completion body. -/
def parseErrorMessage : String := "Failed to parse dream analysis response"

/-- Fixed message for a parsed completion that fails the five-key schema. -/
def formatErrorMessage : String := "Invalid dream analysis response format"

/-- The `data` object of a success response: the five validated fields in
schema order, plus the generation timestamp. -/
def analysisDataJson (d : AnalysisData) (now : Int) : Json :=
  .obj [("emotions", .arr (d.emotions.map .str)),
        ("themes", .arr (d.themes.map .str)),
        ("interpretation", .str d.interpretation),
        ("symbols", .arr (d.symbols.map .str)),
        ("confidence", .num d.confidence),
        ("timestamp", .num (now : Rat))]

/-- `DreamAnalysisResponseSchema`: `{success: boolean, data?: {five keys
plus numeric timestamp}, error?: string, requestId?: string}`. -/
def validResponseJson (j : Json) : Bool :=
  (match Json.lookup "success" j with
   | some (.bool _) => true
   | _ => false) &&
  (match Json.lookup "data" j with
   | none => true
   | some d =>
     (validateAnalysisData d).isSome &&
     (match Json.lookup "timestamp" d with
      | some (.num _) => true
      | _ => false)) &&
  (match Json.lookup "error" j with
   | none => true
   | some (.str _) => true
   | _ => false) &&
  (match Json.lookup "requestId" j with
   | none => true
   | some (.str _) => true
   | _ => false)

/-- The `POST /api/analyzeDream` handler (lines 77-220 of the server).
`upstream` stands for the result of `JSON.parse` on the completion
content (`none` = the parse threw); the returned `Bool` records whether
the external completion call was reached.  The catch-branch for errors
thrown by the OpenAI client itself (quota / rate-limit) is outside the
claims and not modelled. -/
def analyzeDreamHandler (b : DreamRequest) (upstream : Option Json)
    (rid : String) (now : Int) : HttpResponse × Bool :=
  match validateDreamRequest b with
  | some err => (⟨400, errorResponseJson err rid⟩, false)
  | none =>
    match upstream with
    | none => (⟨500, errorResponseJson parseErrorMessage rid⟩, true)
    | some j =>
      match validateAnalysisData j with
      | none => (⟨500, errorResponseJson formatErrorMessage rid⟩, true)
      | some d =>
        let response : Json :=
          .obj [("success", .bool true), ("data", analysisDataJson d now),
                ("requestId", .str rid)]
        if validResponseJson response then (⟨200, response⟩, true)
        else (⟨500, errorResponseJson "Response validation failed" rid⟩, true)

/-- JavaScript `text.toLowerCase().includes(word)` for the ASCII keyword
tables: substring containment in the lowercased character sequence. -/
def lowerIncludes (text kw : String) : Bool :=
  decide (kw.data <:+: text.data.map Char.toLower)

/-- The `emotionWords` table of `analyzeDreamLocally`, in source order. -/
def emotionWords : List (String × List String) :=
  [("fear", ["scared", "afraid", "terrified", "frightened", "panic"]),
   ("joy", ["happy", "excited", "elated", "cheerful", "delighted"]),
   ("sadness", ["sad", "depressed", "crying", "tears", "mourning"]),
   ("anger", ["angry", "mad", "furious", "rage", "hostile"]),
   ("anxiety", ["worried", "nervous", "anxious", "stressed", "uneasy"])]

/-- The `themeWords` table of `analyzeDreamLocally`, in source order. -/
def themeWords : List (String × List String) :=
  [("flying", ["flying", "soaring", "airplane", "wings", "sky"]),
   ("falling", ["falling", "dropping", "plunging", "descending"]),
   ("chase", ["chasing", "running", "pursuing", "escaping"]),
   ("water", ["water", "ocean", "swimming", "drowning", "waves"]),
   ("home", ["home", "house", "family", "childhood", "room"])]

/-- Categories whose keyword set has a member occurring (case-insensitive
substring) in the text, in table order — the `Object.entries(...).forEach`
push loop. -/
def matchedCategories (table : List (String × List String)) (text : String) :
    List String :=
  (table.filter (fun p => p.2.any (fun w => lowerIncludes text w))).map Prod.fst

/-- The `interpretations` table of `generateInterpretation`. -/
def interpretationsTable : List (String × String) :=
  [("fear", "This dream may reflect underlying anxieties or concerns in your waking life."),
   ("joy", "This dream suggests positive emotions and a sense of well-being."),
   ("sadness", "This dream may indicate processing of difficult emotions or experiences."),
   ("anger", "This dream could represent unresolved conflicts or frustrations."),
   ("anxiety", "This dream may reflect stress or worry about current life situations."),
   ("flying", "Flying dreams often represent freedom, ambition, or a desire to escape limitations."),
   ("falling", "Falling dreams may indicate feelings of losing control or insecurity."),
   ("chase", "Being chased in dreams often represents avoidance of something in waking life."),
   ("water", "Water in dreams can symbolize emotions, cleansing, or life transitions."),
   ("home", "Dreams about home often relate to security, identity, or childhood memories.")]

/-- `generateInterpretation(emotions, themes)`: canned sentences for the
matched categories joined by spaces, or a generic sentence. -/
def generateInterpretation (emotions themes : List String) : String :=
  let relevant := (emotions ++ themes).filterMap
    (fun item => List.lookup item interpretationsTable)
  "Dream analysis suggests: " ++
    (if relevant.isEmpty then
      "This dream may reflect your subconscious processing of daily experiences."
     else String.intercalate " " relevant)

/-- The fixed symbol vocabulary of `extractSymbols`, in scan order. -/
def commonSymbols : List String :=
  ["house", "car", "animal", "person", "tree", "water", "fire", "door", "window"]

/-- `extractSymbols(dreamText)`: vocabulary words contained in the text,
first three in scan order. -/
def extractSymbols (text : String) : List String :=
  (commonSymbols.filter (fun symb => lowerIncludes text symb)).take 3

/-- The object returned by `analyzeDreamLocally` (lines 757-763 of the
popup script).  Note: no `confidence` field. -/
structure LocalDreamAnalysis where
  emotions : List String
  themes : List String
  interpretation : String
  symbols : List String
  timestamp : Int
  deriving DecidableEq, Repr

/-- `analyzeDreamLocally(dreamText)`: keyword-table scan with defaults
`["neutral"]` / `["general"]`; the interpretation is generated from the
raw (pre-default) match lists, exactly as in the source. -/
def analyzeDreamLocally (text : String) (now : Int) : LocalDreamAnalysis :=
  { emotions :=
      if (matchedCategories emotionWords text).isEmpty then ["neutral"]
      else matchedCategories emotionWords text
    themes :=
      if (matchedCategories themeWords text).isEmpty then ["general"]
      else matchedCategories themeWords text
    interpretation :=
      generateInterpretation (matchedCategories emotionWords text)
        (matchedCategories themeWords text)
    symbols := extractSymbols text
    timestamp := now }

/-- The return object of `analyzeDreamLocally` as the JSON value handed
to the UI, keys in source order. -/
def localAnalysisJson (text : String) (now : Int) : Json :=
  .obj [("emotions", .arr ((analyzeDreamLocally text now).emotions.map .str)),
        ("themes", .arr ((analyzeDreamLocally text now).themes.map .str)),
        ("interpretation", .str (analyzeDreamLocally text now).interpretation),
        ("symbols", .arr ((analyzeDreamLocally text now).symbols.map .str)),
        ("timestamp", .num (now : Rat))]

/-! ## Claim theorems for the gateway -/

/-- Claim C7: the endpoint accepts exactly the request bodies whose
`dreamText` length lies in `[20, 2000]`; shorter or longer texts are
rejected with a 400 `Validation failed` response that names the
`dreamText` field and the violated bound, and the external completion
call is never reached; in-range texts pass validation and proceed to the
external call. -/
theorem dream_text_length_validated (b : DreamRequest) (upstream : Option Json)
    (rid : String) (now : Int) :
    (validateDreamRequest b = none ↔
      20 ≤ b.dreamText.length ∧ b.dreamText.length ≤ 2000) ∧
    (b.dreamText.length < 20 →
      analyzeDreamHandler b upstream rid now =
        (⟨400, errorResponseJson ("Validation failed: " ++ dreamTextMinError) rid⟩,
         false)) ∧
    (2000 < b.dreamText.length →
      analyzeDreamHandler b upstream rid now =
        (⟨400, errorResponseJson ("Validation failed: " ++ dreamTextMaxError) rid⟩,
         false)) ∧
    (20 ≤ b.dreamText.length → b.dreamText.length ≤ 2000 →
      (analyzeDreamHandler b upstream rid now).2 = true) := by
  refine ⟨?_, ?_, ?_, ?_⟩
  · unfold validateDreamRequest
    split_ifs <;> simp <;> omega
  · intro h
    unfold analyzeDreamHandler validateDreamRequest
    rw [if_pos h]
  · intro h
    unfold analyzeDreamHandler validateDreamRequest
    rw [if_neg (by omega), if_pos h]
  · intro h1 h2
    unfold analyzeDreamHandler validateDreamRequest
    rw [if_neg (by omega), if_neg (by omega)]
    cases upstream with
    | none => rfl
    | some j =>
      dsimp only
      cases validateAnalysisData j with
      | none => rfl
      | some d =>
        dsimp only
        split <;> rfl

theorem dream_text_length_validated_witness :
    (analyzeDreamHandler ⟨String.mk (List.replicate 19 'a'), none, none⟩ none "req" 0 =
      (⟨400, errorResponseJson ("Validation failed: " ++ dreamTextMinError) "req"⟩,
       false)) ∧
    ((analyzeDreamHandler ⟨String.mk (List.replicate 20 'a'), none, none⟩ none "req" 0).2 =
      true) ∧
    ((analyzeDreamHandler ⟨String.mk (List.replicate 2000 'a'), none, none⟩ none "req" 0).2 =
      true) ∧
    (analyzeDreamHandler ⟨String.mk (List.replicate 2001 'a'), none, none⟩ none "req" 0 =
      (⟨400, errorResponseJson ("Validation failed: " ++ dreamTextMaxError) "req"⟩,
       false)) := by
  refine ⟨(dream_text_length_validated _ none "req" 0).2.1 ?_,
          (dream_text_length_validated _ none "req" 0).2.2.2 ?_ ?_,
          (dream_text_length_validated _ none "req" 0).2.2.2 ?_ ?_,
          (dream_text_length_validated _ none "req" 0).2.2.1 ?_⟩ <;>
    simp only [String.length, List.length_replicate] <;> omega

/-- Claim C8: once validation has passed, an upstream completion body
that fails `JSON.parse` yields the 500 response with the fixed message
`Failed to parse dream analysis response`, and a parsed body that fails
the five-key schema yields the 500 response with the fixed message
`Invalid dream analysis response format`; in both cases the response is a
constant determined by the request id alone — no part of the upstream
content is forwarded. -/
theorem upstream_failure_fixed_errors (b : DreamRequest) (rid : String) (now : Int)
    (hv : validateDreamRequest b = none) :
    (analyzeDreamHandler b none rid now =
      (⟨500, errorResponseJson parseErrorMessage rid⟩, true)) ∧
    (∀ j, validateAnalysisData j = none →
      analyzeDreamHandler b (some j) rid now =
        (⟨500, errorResponseJson formatErrorMessage rid⟩, true)) ∧
    (∀ j₁ j₂, validateAnalysisData j₁ = none → validateAnalysisData j₂ = none →
      analyzeDreamHandler b (some j₁) rid now =
        analyzeDreamHandler b (some j₂) rid now) := by
  refine ⟨?_, ?_, ?_⟩
  · unfold analyzeDreamHandler
    rw [hv]
  · intro j hj
    unfold analyzeDreamHandler
    rw [hv]
    dsimp only
    rw [hj]
  · intro j₁ j₂ h₁ h₂
    unfold analyzeDreamHandler
    rw [hv]
    dsimp only
    rw [h₁, h₂]

theorem upstream_failure_fixed_errors_witness :
    (analyzeDreamHandler ⟨String.mk (List.replicate 20 'a'), none, none⟩ none "req" 0 =
      (⟨500, errorResponseJson parseErrorMessage "req"⟩, true)) ∧
    (analyzeDreamHandler ⟨String.mk (List.replicate 20 'a'), none, none⟩
        (some (Json.str "not the schema")) "req" 0 =
      (⟨500, errorResponseJson formatErrorMessage "req"⟩, true)) := by
  have h := upstream_failure_fixed_errors
    ⟨String.mk (List.replicate 20 'a'), none, none⟩ "req" 0
    (by
      unfold validateDreamRequest
      rw [if_neg (by simp only [String.length, List.length_replicate]; omega),
          if_neg (by simp only [String.length, List.length_replicate]; omega)])
  exact ⟨h.1, h.2.1 (Json.str "not the schema") rfl⟩

theorem mem_matchedCategories (table : List (String × List String))
    (text : String) (cat : String) (kws : List String)
    (hmem : (cat, kws) ∈ table) (hnd : (table.map Prod.fst).Nodup) :
    cat ∈ matchedCategories table text ↔
      kws.any (fun w => lowerIncludes text w) = true := by
  unfold matchedCategories
  constructor
  · intro h
    obtain ⟨p, hp, hfst⟩ := List.mem_map.mp h
    have hpl := (List.mem_filter.mp hp).1
    have hppred := (List.mem_filter.mp hp).2
    have hpe : p = (cat, kws) :=
      List.inj_on_of_nodup_map hnd hpl hmem (by rw [hfst])
    rw [hpe] at hppred
    exact hppred
  · intro h
    exact List.mem_map.mpr ⟨(cat, kws), List.mem_filter.mpr ⟨hmem, h⟩, rfl⟩

theorem matchedCategories_eq_nil (table : List (String × List String))
    (text : String)
    (h : ∀ p ∈ table, p.2.any (fun w => lowerIncludes text w) = false) :
    matchedCategories table text = [] := by
  unfold matchedCategories
  rw [List.filter_eq_nil_iff.mpr (fun p hp => by rw [h p hp]; simp)]
  rfl

theorem matched_or_default_mem (table : List (String × List String))
    (dflt text cat : String) (kws : List String)
    (hnd : (table.map Prod.fst).Nodup) (hdflt : dflt ∉ table.map Prod.fst)
    (hmem : (cat, kws) ∈ table) :
    (cat ∈ (if (matchedCategories table text).isEmpty then [dflt]
            else matchedCategories table text) ↔
      kws.any (fun w => lowerIncludes text w) = true) := by
  by_cases hemp : (matchedCategories table text).isEmpty = true
  · rw [if_pos hemp]
    have hcatne : cat ≠ dflt := fun h =>
      hdflt (h ▸ List.mem_map.mpr ⟨(cat, kws), hmem, rfl⟩)
    rw [List.isEmpty_iff] at hemp
    constructor
    · intro h
      exact absurd (List.mem_singleton.mp h) hcatne
    · intro h
      exfalso
      have hm := (mem_matchedCategories table text cat kws hmem hnd).mpr h
      rw [hemp] at hm
      cases hm
  · rw [if_neg hemp]
    exact mem_matchedCategories table text cat kws hmem hnd

/-- Claim C9: the local fallback includes an emotion or theme category in
its result exactly when one of that category's configured keywords occurs
case-insensitively (as a substring) in the dream text; when no emotion
keyword matches, `emotions` is exactly `["neutral"]`, and when no theme
keyword matches, `themes` is exactly `["general"]`. -/
theorem local_analysis_keyword_matching (text : String) (now : Int) :
    (∀ cat kws, (cat, kws) ∈ emotionWords →
      (cat ∈ (analyzeDreamLocally text now).emotions ↔
        kws.any (fun w => lowerIncludes text w) = true)) ∧
    ((∀ p ∈ emotionWords, p.2.any (fun w => lowerIncludes text w) = false) →
      (analyzeDreamLocally text now).emotions = ["neutral"]) ∧
    (∀ cat kws, (cat, kws) ∈ themeWords →
      (cat ∈ (analyzeDreamLocally text now).themes ↔
        kws.any (fun w => lowerIncludes text w) = true)) ∧
    ((∀ p ∈ themeWords, p.2.any (fun w => lowerIncludes text w) = false) →
      (analyzeDreamLocally text now).themes = ["general"]) := by
  refine ⟨?_, ?_, ?_, ?_⟩
  · intro cat kws hmem
    exact matched_or_default_mem emotionWords "neutral" text cat kws
      (by decide) (by decide) hmem
  · intro h
    show (if (matchedCategories emotionWords text).isEmpty then ["neutral"]
          else matchedCategories emotionWords text) = ["neutral"]
    rw [matchedCategories_eq_nil emotionWords text h]
    rfl
  · intro cat kws hmem
    exact matched_or_default_mem themeWords "general" text cat kws
      (by decide) (by decide) hmem
  · intro h
    show (if (matchedCategories themeWords text).isEmpty then ["general"]
          else matchedCategories themeWords text) = ["general"]
    rw [matchedCategories_eq_nil themeWords text h]
    rfl

theorem local_analysis_keyword_matching_witness :
    "flying" ∈
      (analyzeDreamLocally "I was flying over a beautiful landscape and felt free" 0).themes ∧
    (analyzeDreamLocally "I was flying over a beautiful landscape and felt free" 0).emotions =
      ["neutral"] := by
  obtain ⟨_, hne, ht, _⟩ :=
    local_analysis_keyword_matching
      "I was flying over a beautiful landscape and felt free" 0
  exact ⟨(ht "flying" ["flying", "soaring", "airplane", "wings", "sky"]
    (by decide)).mpr (by decide), hne (by decide)⟩

/-- Claim C10 (counterexample): the object returned by the local fallback
has no `confidence` key at all, while the external path's data object
always carries one — the two shapes are not structurally identical. -/
theorem local_result_lacks_confidence :
    Json.lookup "confidence"
      (localAnalysisJson "I was flying over a beautiful landscape and felt free" 0) =
      none ∧
    Json.lookup "confidence"
      (analysisDataJson ⟨["joy"], ["flying"], "calm", ["house"], 1⟩ 0) =
      some (Json.num 1) := by
  constructor <;> rfl

/-- Claim C10 (amended): the local fallback result carries exactly the
fields `emotions, themes, interpretation, symbols, timestamp` — it omits
`confidence` — whereas the external model path's data object carries all
five schema fields plus the timestamp; the two key sets differ, so the
result does reveal which path produced it. -/
theorem local_vs_api_shape (text : String) (now : Int) (d : AnalysisData) (ts : Int) :
    Json.keys (localAnalysisJson text now) =
      ["emotions", "themes", "interpretation", "symbols", "timestamp"] ∧
    Json.keys (analysisDataJson d ts) =
      ["emotions", "themes", "interpretation", "symbols", "confidence", "timestamp"] ∧
    Json.lookup "confidence" (localAnalysisJson text now) = none ∧
    Json.lookup "confidence" (analysisDataJson d ts) = some (Json.num d.confidence) ∧
    Json.keys (localAnalysisJson text now) ≠ Json.keys (analysisDataJson d ts) := by
  refine ⟨rfl, rfl, rfl, rfl, fun h => ?_⟩
  rw [show Json.keys (localAnalysisJson text now) =
        ["emotions", "themes", "interpretation", "symbols", "timestamp"] from rfl,
      show Json.keys (analysisDataJson d ts) =
        ["emotions", "themes", "interpretation", "symbols", "confidence", "timestamp"]
        from rfl] at h
  exact absurd h (by decide)

theorem local_vs_api_shape_witness :
    Json.keys (localAnalysisJson "I dreamt of a quiet house by the sea" 0) ≠
      Json.keys (analysisDataJson ⟨["joy"], ["flying"], "calm", ["house"], 1⟩ 7) :=
  (local_vs_api_shape "I dreamt of a quiet house by the sea" 0
    ⟨["joy"], ["flying"], "calm", ["house"], 1⟩ 7).2.2.2.2
